import Mathlib

/-!
Verification of the LintPy mining pipeline (minerador.py).

The development shallowly embeds the core of the miner: the command runner
(run_command), the violation collector (collect_ruff_violations) and the
per-repository mining procedure (mine_repository) with its per-commit and
per-violation processing.  External effects (process execution, the git
checkout, the JSON decoder, and filesystem reads and writes) are supplied by
explicit environments; the dataset directory written by the miner is modelled
as an association list keyed by commit short hash and file name, matching the
single on-disk directory dataset of project and short hash into which both
file snapshots and violation record files are written.  Uncaught Python
exceptions are modelled by the error branch of Except, which aborts the whole
invocation of mine_repository.
-/

namespace LintPy

/-- Models the Python expression s.split with separator slash, on char lists. -/
def splitSlashAux : List Char → List Char → List (List Char)
  | [], acc => [acc.reverse]
  | '/' :: rest, acc => acc.reverse :: splitSlashAux rest []
  | c :: rest, acc => splitSlashAux rest (c :: acc)

/-- Models the Python expression s.split with separator slash. -/
def splitSlash (s : String) : List String :=
  (splitSlashAux s.data []).map String.mk

/-- Models the Python expression s.replace of the pattern dot g i t by the
empty string: leftmost, non-overlapping occurrences are removed. -/
def replaceDotGit : List Char → List Char
  | '.' :: 'g' :: 'i' :: 't' :: rest => replaceDotGit rest
  | c :: rest => c :: replaceDotGit rest
  | [] => []

/-- Models the Python expression s.strip: whitespace removed at both ends. -/
def pyStrip (s : String) : String :=
  String.mk (((s.data.dropWhile Char.isWhitespace).reverse.dropWhile Char.isWhitespace).reverse)

/-- Models the Python slicing expression of the first n characters of s. -/
def pyTake (s : String) (n : Nat) : String :=
  String.mk (s.data.take n)

/-- Models os.path.basename: the part of the path after the last slash. -/
def basename (p : String) : String :=
  (splitSlash p).getLastD ""

/-- Decimal digit list of a positive number, least significant digit first;
the first argument is structural fuel (sufficient whenever it bounds n). -/
def natDigitsAux : Nat → Nat → List Nat
  | 0, _ => []
  | _ + 1, 0 => []
  | fuel + 1, n + 1 => ((n + 1) % 10) :: natDigitsAux fuel ((n + 1) / 10)

/-- Models the Python decimal rendering str of a natural number. -/
def natStr (n : Nat) : String :=
  if n = 0 then "0" else String.mk (((natDigitsAux n n).reverse).map Nat.digitChar)

/-- Outcome of spawning the external command: either the process completed
with captured stdout and stderr, or the 60 second wall clock timeout expired
while the process had produced some partial output. -/
inductive CmdOutcome where
  | completed (stdout stderr : String)
  | timedOut (outSoFar errSoFar : String)
deriving DecidableEq

/-- Wall clock timeout, in seconds, passed to subprocess.run by run_command. -/
def run_command_timeout : Nat := 60

/-- Embeds run_command: on completion both captured streams are stripped and
returned; on subprocess.TimeoutExpired the partial output is discarded and a
fixed sentinel pair of empty stdout and a timeout message is returned. -/
def run_command (o : CmdOutcome) : String × String :=
  match o with
  | CmdOutcome.completed out err => (pyStrip out, pyStrip err)
  | CmdOutcome.timedOut _ _ => ("", "⏱ Timeout ao executar comando")

/-- One element of the JSON array printed by the analyzer, as the miner reads
it: each field is present (some) or missing from the object (none).  A missing
filename is tolerated by the mining loop; missing location row, code or
message raise an uncaught KeyError when the record dictionary is built. -/
structure RuffEntry where
  filename : Option String
  location_row : Option Nat
  code : Option String
  message : Option String
deriving DecidableEq

/-- Embeds collect_ruff_violations: run the analyzer command; if the stripped
stdout is empty return the empty list; otherwise decode the stdout with the
JSON decoder (the decode oracle stands for json.loads, returning none exactly
when json.loads raises JSONDecodeError, in which case the failure is logged
and the empty list is returned). -/
def collect_ruff_violations (o : CmdOutcome) (decode : String → Option (List RuffEntry)) :
    List RuffEntry :=
  let res := run_command o
  if pyStrip res.1 = "" then []
  else
    match decode res.1 with
    | some vs => vs
    | none => []

/-- The violation_data dictionary written as one record file. -/
structure ViolationRecord where
  project_name : String
  owner : String
  branch : String
  commit_hash : String
  full_commit_hash : String
  commit_date : String
  file_path_in_repo : String
  local_file_name : String
  line : Nat
  linter_code : String
  message : String
  repo_url : String
deriving DecidableEq

/-- Content of one file inside a commit directory of the dataset: either a
file snapshot (written with the violating file content) or a violation record
(written by json.dump). -/
inductive FileContent where
  | snapshotFile (text : String)
  | recordFile (record : ViolationRecord)
deriving DecidableEq

/-- Returns true when the file content is a violation record. -/
def FileContent.isRecordFile : FileContent → Bool
  | FileContent.recordFile _ => true
  | FileContent.snapshotFile _ => false

/-- Returns true when the file content is a file snapshot. -/
def FileContent.isSnapshotFile : FileContent → Bool
  | FileContent.recordFile _ => false
  | FileContent.snapshotFile _ => true

/-- Messages printed through the log helper, abstracted by site. -/
inductive LogMsg where
  | cloning (url : String)
  | cloneError (url : String)
  | commitsFound (n : Nat) (branch : String)
  | checkoutError (short : String)
  | analyzing (short date : String)
  | fileNotFound (rel : String)
  | readError (name : String)
  | jsonSaveError (name : String)
  | doneCount (n : Nat)
  | processedOk (url : String)
deriving DecidableEq

/-- One commit as enumerated by repo.iter_commits. -/
structure Commit where
  hexsha : String
  committed_date : Nat
deriving DecidableEq

/-- The observable state of one invocation of mine_repository: the dataset
directories and files it created, whether the ephemeral workspace directory
has been removed, the count of successfully saved records, and the log. -/
structure FS where
  baseDirs : List String
  commitDirs : List String
  files : List (String × String × FileContent)
  releasedWorkspace : Bool
  saved_counter : Nat
  logs : List LogMsg
deriving DecidableEq

/-- The state at the start of mine_repository: nothing written, workspace
directory just created by tempfile.mkdtemp (not yet released). -/
def FS.init : FS :=
  { baseDirs := [], commitDirs := [], files := [], releasedWorkspace := false,
    saved_counter := 0, logs := [] }

/-- Appends one log message. -/
def FS.addLog (st : FS) (m : LogMsg) : FS :=
  { st with logs := st.logs ++ [m] }

/-- Models os.path.exists inside a commit directory: some file with this name
exists in the directory of this short hash, snapshot or record alike. -/
def keyExists (fs : List (String × String × FileContent)) (s n : String) : Bool :=
  fs.any fun e => e.1 = s && e.2.1 = n

/-- Models opening a file for writing: replaces the content of the file with
this name in this commit directory if it exists, otherwise creates it. -/
def setFile (fs : List (String × String × FileContent)) (s n : String) (c : FileContent) :
    List (String × String × FileContent) :=
  match fs with
  | [] => [(s, n, c)]
  | e :: rest => if e.1 = s ∧ e.2.1 = n then (s, n, c) :: rest else e :: setFile rest s n c

/-- Reads the content of the file with this name in this commit directory. -/
def lookupFile (fs : List (String × String × FileContent)) (s n : String) :
    Option FileContent :=
  match fs with
  | [] => none
  | e :: rest => if e.1 = s ∧ e.2.1 = n then some e.2.2 else lookupFile rest s n

/-- Models os.makedirs with exist_ok: adds the directory if absent. -/
def addDir (l : List String) (d : String) : List String :=
  if d ∈ l then l else l ++ [d]

/-- The record files among the dataset files. -/
def recEntries (fs : List (String × String × FileContent)) :
    List (String × String × FileContent) :=
  fs.filter fun e => e.2.2.isRecordFile

/-- The snapshot files among the dataset files. -/
def snapEntries (fs : List (String × String × FileContent)) :
    List (String × String × FileContent) :=
  fs.filter fun e => e.2.2.isSnapshotFile

/-- Per-commit external behavior: whether the forced checkout succeeds, the
outcome of the analyzer invocation against the workspace at this commit, which
workspace paths exist, what reading a workspace file yields (none models an
uncaught read that the miner catches and logs), and which snapshot and record
writes succeed (false models an OSError raised by open or write). -/
structure CommitEnv where
  checkoutOk : Bool
  ruffOutcome : CmdOutcome
  fileExists : String → Bool
  readFile : String → Option String
  snapshotWriteOk : String → Bool
  recordWriteOk : String → Bool

/-- Repository-level context derived once by mine_repository. -/
structure RepoCtx where
  repo_name : String
  owner : String
  branch : String
  repo_url : String
  temp_dir : String
  decode : String → Option (List RuffEntry)
  fmtDate : Nat → String

/-- Environment of one invocation of mine_repository: the input URL, whether
git clone succeeds, the active branch (none when undeterminable, in which case
the miner falls back to main), the commit list with the per-commit external
behavior, the JSON decode oracle standing for json.loads, the date formatter
standing for datetime strftime, and the fresh temporary directory name. -/
structure RepoEnv where
  repo_url : String
  cloneOk : Bool
  activeBranch : Option String
  commits : List (Commit × CommitEnv)
  decode : String → Option (List RuffEntry)
  fmtDate : Nat → String
  temp_dir : String

/-- Result of one invocation of mine_repository: clone failure (workspace
released, nothing mined), normal completion (workspace released), or an
uncaught exception escaping the procedure (workspace not released). -/
inductive MineResult where
  | cloneFailed (st : FS)
  | ok (st : FS)
  | crashed (st : FS)
deriving DecidableEq

/-- The dataset state carried by a mining result. -/
def MineResult.state : MineResult → FS
  | MineResult.cloneFailed st => st
  | MineResult.ok st => st
  | MineResult.crashed st => st

/-- Whether the invocation ended with an uncaught exception. -/
def MineResult.isCrashed : MineResult → Bool
  | MineResult.cloneFailed _ => false
  | MineResult.ok _ => false
  | MineResult.crashed _ => true

/-- The state carried by either branch of an Except of states. -/
def exState : Except FS FS → FS
  | Except.ok st => st
  | Except.error st => st

/-- Models repo_url.split by slash, index -1, with the dot git suffix pattern
removed: the project name. -/
def repoNameOf (url : String) : String :=
  String.mk (replaceDotGit (((splitSlash url).getLastD "").data))

/-- Models repo_url.split by slash, index -2: the owner. -/
def ownerOf (url : String) : String :=
  ((splitSlash url).reverse.drop 1).headD ""

/-- The violation_data dictionary built for one violation. -/
def mkRecord (ctx : RepoCtx) (commit : Commit) (rel file_name : String) (row : Nat)
    (code msg : String) : ViolationRecord :=
  { project_name := ctx.repo_name
    owner := ctx.owner
    branch := ctx.branch
    commit_hash := pyTake commit.hexsha 7
    full_commit_hash := commit.hexsha
    commit_date := ctx.fmtDate commit.committed_date
    file_path_in_repo := rel
    local_file_name := file_name
    line := row
    linter_code := code
    message := msg
    repo_url := ctx.repo_url }

/-- The f-string naming one record file: violation, linter code, 1-based
sequence index, dot json. -/
def recordFileName (code : String) (i : Nat) : String :=
  "violation_" ++ code ++ "_" ++ natStr i ++ ".json"

/-- The state after the snapshot write of lines 149 to 152: if a file with
this base name already exists in the commit directory nothing is written,
otherwise the file content is written under the base name. -/
def ensureSnapshot (st : FS) (short file_name file_content : String) : FS :=
  if keyExists st.files short file_name then st
  else { st with files := setFile st.files short file_name (FileContent.snapshotFile file_content) }

/-- The snapshot step: skip when the file already exists; otherwise attempt
the write, none modelling an uncaught exception raised by open or write. -/
def snapshot_step (cenv : CommitEnv) (st : FS) (short file_name file_content : String) :
    Option FS :=
  if keyExists st.files short file_name then some st
  else if cenv.snapshotWriteOk file_name then
    some { st with files := setFile st.files short file_name (FileContent.snapshotFile file_content) }
  else none

/-- The record step of lines 154 to 177: building violation_data looks up the
location row, the code and the message, raising an uncaught KeyError when one
is missing; then the record is written under its record file name, a write
failure being caught, logged, and skipped. -/
def record_step (ctx : RepoCtx) (commit : Commit) (cenv : CommitEnv) (i : Nat)
    (v : RuffEntry) (rel file_name : String) (st : FS) : Except FS FS :=
  match v.location_row, v.code, v.message with
  | some row, some code, some msg =>
    let record := mkRecord ctx commit rel file_name row code msg
    let violation_filename := recordFileName code (i + 1)
    if cenv.recordWriteOk violation_filename then
      Except.ok { st with
        files := setFile st.files (pyTake commit.hexsha 7) violation_filename
          (FileContent.recordFile record),
        saved_counter := st.saved_counter + 1 }
    else
      Except.ok (st.addLog (LogMsg.jsonSaveError violation_filename))
  | _, _, _ => Except.error st

/-- The body of the per-violation loop of lines 131 to 177 for the violation
at enumerate index i: skip entries without a filename; skip (with a log) when
the file is absent from the workspace or unreadable; then the snapshot step
and the record step.  The error branch models an uncaught exception. -/
def process_violation (ctx : RepoCtx) (commit : Commit) (cenv : CommitEnv) (i : Nat)
    (v : RuffEntry) (st : FS) : Except FS FS :=
  match v.filename with
  | none => Except.ok st
  | some rel =>
    let file_path_full := ctx.temp_dir ++ "/" ++ rel
    if cenv.fileExists file_path_full = false then
      Except.ok (st.addLog (LogMsg.fileNotFound rel))
    else
      let file_name := basename rel
      match cenv.readFile file_path_full with
      | none => Except.ok (st.addLog (LogMsg.readError file_name))
      | some file_content =>
        match snapshot_step cenv st (pyTake commit.hexsha 7) file_name file_content with
        | none => Except.error st
        | some st1 => record_step ctx commit cenv i v rel file_name st1

/-- The per-violation loop over the enumerated violation list; an uncaught
exception short-circuits the remaining violations and the remaining commits. -/
def processViolations (ctx : RepoCtx) (commit : Commit) (cenv : CommitEnv) :
    List (Nat × RuffEntry) → FS → Except FS FS
  | [], st => Except.ok st
  | (i, v) :: rest, st =>
    match process_violation ctx commit cenv i v st with
    | Except.error st1 => Except.error st1
    | Except.ok st1 => processViolations ctx commit cenv rest st1

/-- The body of the per-commit loop of lines 113 to 177: checkout (a failure
is logged and the commit skipped), collect the violations, skip the commit
entirely when the list is empty, otherwise create the commit directory and
run the per-violation loop over the enumerated list. -/
def process_commit (ctx : RepoCtx) (commit : Commit) (cenv : CommitEnv) (st : FS) :
    Except FS FS :=
  let short := pyTake commit.hexsha 7
  if cenv.checkoutOk = false then
    Except.ok (st.addLog (LogMsg.checkoutError short))
  else
    let st := st.addLog (LogMsg.analyzing short (ctx.fmtDate commit.committed_date))
    let violations := collect_ruff_violations cenv.ruffOutcome ctx.decode
    if violations.isEmpty then Except.ok st
    else
      let st := { st with commitDirs := addDir st.commitDirs short }
      processViolations ctx commit cenv violations.enum st

/-- The per-commit loop over the commit list. -/
def processCommits (ctx : RepoCtx) : List (Commit × CommitEnv) → FS → Except FS FS
  | [], st => Except.ok st
  | (c, cenv) :: rest, st =>
    match process_commit ctx c cenv st with
    | Except.error st1 => Except.error st1
    | Except.ok st1 => processCommits ctx rest st1

/-- Context derived once by mine_repository: the project name and owner from
the URL (lines 89 and 90), the branch with the main fallback (lines 102 to
105), and the external oracles. -/
def mineCtx (env : RepoEnv) : RepoCtx :=
  { repo_name := repoNameOf env.repo_url, owner := ownerOf env.repo_url,
    branch := env.activeBranch.getD "main", repo_url := env.repo_url,
    temp_dir := env.temp_dir, decode := env.decode, fmtDate := env.fmtDate }

/-- State reached just after a successful clone: the two opening log lines
and the project base directory created at lines 110 and 111, before any
commit is processed. -/
def mineStart (env : RepoEnv) : FS :=
  let st := (FS.init.addLog (LogMsg.cloning env.repo_url)).addLog
    (LogMsg.commitsFound env.commits.length (env.activeBranch.getD "main"))
  { st with baseDirs := addDir st.baseDirs (repoNameOf env.repo_url) }

/-- Lines 179 to 185 after the commit loop: on the normal path the closing
log lines run and the workspace is removed; an uncaught exception instead
propagates to the caller before the removal line, workspace not released. -/
def finishMine (env : RepoEnv) (res : Except FS FS) : MineResult :=
  match res with
  | Except.ok st1 =>
    MineResult.ok
      { (st1.addLog (LogMsg.doneCount st1.saved_counter)).addLog
          (LogMsg.processedOk env.repo_url) with releasedWorkspace := true }
  | Except.error st1 => MineResult.crashed st1

/-- Embeds mine_repository: derive name, owner and branch from the URL and
the repository, clone (on failure log, remove the workspace and return),
create the project base directory, run the per-commit loop, then finish. -/
def mine_repository (env : RepoEnv) : MineResult :=
  if env.cloneOk = false then
    MineResult.cloneFailed
      { (FS.init.addLog (LogMsg.cloning env.repo_url)).addLog
          (LogMsg.cloneError env.repo_url) with releasedWorkspace := true }
  else finishMine env (processCommits (mineCtx env) env.commits (mineStart env))

/-- A violation entry the happy path of the loop body fully processes: it has
a filename, the file exists in the workspace, it is readable, and the row,
code and message fields are all present. -/
def goodEntry (ctx : RepoCtx) (cenv : CommitEnv) (v : RuffEntry) : Bool :=
  match v.filename with
  | none => false
  | some rel =>
    cenv.fileExists (ctx.temp_dir ++ "/" ++ rel) &&
    (cenv.readFile (ctx.temp_dir ++ "/" ++ rel)).isSome &&
    v.location_row.isSome && v.code.isSome && v.message.isSome

/-! Association list lemmas for the dataset file map. -/

/-! Frame lemmas: which parts of the state each processing step leaves alone. -/

/-! Invariant: every record file in the dataset has, in its commit directory,
a file named by its local_file_name field. -/

/-- Every record entry of the file map has some file (snapshot or record)
under its commit short hash and its local_file_name. -/
def recordsHaveFiles (fs : List (String × String × FileContent)) : Prop :=
  ∀ e ∈ fs, ∀ r, e.2.2 = FileContent.recordFile r → keyExists fs e.1 r.local_file_name = true

/-! Decimal rendering: correctness and injectivity of natStr, and
collision-freedom of record file names across sequence indices. -/

/-- Value of a least-significant-first decimal digit list. -/
def evalDigits : List Nat → Nat
  | [] => 0
  | d :: ds => d + 10 * evalDigits ds

/-! Happy-path characterization of the per-violation loop body. -/

/-- The state produced by the loop body on the happy path: the snapshot
ensured, then the record written and the saved counter bumped. -/
def goodStepState (ctx : RepoCtx) (commit : Commit) (i : Nat) (st : FS)
    (rel content : String) (row : Nat) (code msg : String) : FS :=
  { ensureSnapshot st (pyTake commit.hexsha 7) (basename rel) content with
    files := setFile (ensureSnapshot st (pyTake commit.hexsha 7) (basename rel) content).files
      (pyTake commit.hexsha 7) (recordFileName code (i + 1))
      (FileContent.recordFile (mkRecord ctx commit rel (basename rel) row code msg)),
    saved_counter :=
      (ensureSnapshot st (pyTake commit.hexsha 7) (basename rel) content).saved_counter + 1 }

/-! Claim theorems. -/

/-- Context used to witness C7 concretely. -/
def ctxW7 : RepoCtx :=
  { repo_name := "r", owner := "o", branch := "main", repo_url := "u", temp_dir := "tmp",
    decode := fun _ => none, fmtDate := fun _ => "2020-01-01" }

/-- Commit environment used to witness C7: the analyzer times out. -/
def cenvW7 : CommitEnv :=
  { checkoutOk := true, ruffOutcome := CmdOutcome.timedOut "abc" "",
    fileExists := fun _ => false, readFile := fun _ => none,
    snapshotWriteOk := fun _ => false, recordWriteOk := fun _ => false }

/-- Commit used to witness C7. -/
def commitW7 : Commit := { hexsha := "0123456789abcdef0123456789abcdef01234567", committed_date := 9 }

/-- Environment used to witness C10: clone succeeds and the single commit
yields zero violations, yet the base directory exists. -/
def envW10 : RepoEnv :=
  { repo_url := "https://h/o/r.git", cloneOk := true, activeBranch := some "main",
    commits := [({ hexsha := "0123456789abcdef0123456789abcdef01234567", committed_date := 0 },
      { checkoutOk := true, ruffOutcome := CmdOutcome.timedOut "abc" "",
        fileExists := fun _ => false, readFile := fun _ => none,
        snapshotWriteOk := fun _ => false, recordWriteOk := fun _ => false })],
    decode := fun _ => none, fmtDate := fun _ => "2020-01-01", temp_dir := "tmp" }

/-- Commit environment used in the C1 counterexample: everything on disk
succeeds. -/
def cenvC1 : CommitEnv :=
  { checkoutOk := true, ruffOutcome := CmdOutcome.completed "x" "",
    fileExists := fun _ => true, readFile := fun _ => some "print(1)",
    snapshotWriteOk := fun _ => true, recordWriteOk := fun _ => true }

/-- Analyzer entry of the C1 counterexample: the location field is missing. -/
def vC1 : RuffEntry :=
  { filename := some "a.py", location_row := none, code := some "E501", message := some "m" }

/-- Commit of the C1 counterexample. -/
def commitC1 : Commit :=
  { hexsha := "abcdef1234abcdef1234abcdef1234abcdef1234", committed_date := 0 }

/-- Environment of the C1 counterexample: the clone succeeds and the single
analyzer entry lacks the location field, raising an uncaught KeyError. -/
def envC1 : RepoEnv :=
  { repo_url := "https://h/o/r.git", cloneOk := true, activeBranch := some "main",
    commits := [(commitC1, cenvC1)], decode := fun _ => some [vC1],
    fmtDate := fun _ => "2020-01-01", temp_dir := "tmp" }

/-- Commit environment of the C9 scenario: everything on disk succeeds. -/
def cenvC9 : CommitEnv :=
  { checkoutOk := true, ruffOutcome := CmdOutcome.completed "x" "",
    fileExists := fun _ => true, readFile := fun _ => some "conteudo",
    snapshotWriteOk := fun _ => true, recordWriteOk := fun _ => true }

/-- Bad analyzer entry of the C9 scenario: existing readable file, code field
missing from the object. -/
def vC9bad : RuffEntry :=
  { filename := some "a.py", location_row := some 3, code := none, message := some "m" }

/-- Good sibling analyzer entry of the C9 scenario. -/
def vC9good : RuffEntry :=
  { filename := some "b.py", location_row := some 4, code := some "E1", message := some "m2" }

/-- First commit of the C9 scenario. -/
def commitC9a : Commit :=
  { hexsha := "1111111aaaaaaaaaaaaaaaaaaaaaaaaaaaaaaaaa", committed_date := 0 }

/-- Second commit of the C9 scenario. -/
def commitC9b : Commit :=
  { hexsha := "2222222aaaaaaaaaaaaaaaaaaaaaaaaaaaaaaaaa", committed_date := 0 }

/-- Environment of the C9 scenario: two commits; the first analyzer entry of
the first commit lacks the code field; a good sibling entry and a whole
second commit follow. -/
def envC9 : RepoEnv :=
  { repo_url := "https://h/o/r.git", cloneOk := true, activeBranch := some "main",
    commits := [(commitC9a, cenvC9), (commitC9b, cenvC9)],
    decode := fun _ => some [vC9bad, vC9good],
    fmtDate := fun _ => "2020-01-01", temp_dir := "tmp" }

/-- Parsed entry of the C3 counterexample: no file path. -/
def vC3 : RuffEntry :=
  { filename := none, location_row := some 1, code := some "E501", message := some "m" }

/-- Decode oracle of the C3 counterexample: one parsed entry with no file
path. -/
def decodeC3 : String → Option (List RuffEntry) := fun _ => some [vC3]

/-- Context used to witness C3. -/
def ctxW3 : RepoCtx :=
  { repo_name := "r", owner := "o", branch := "main", repo_url := "u", temp_dir := "tmp",
    decode := fun _ => none, fmtDate := fun _ => "2020-01-01" }

/-- Commit environment used to witness C3. -/
def cenvW3 : CommitEnv :=
  { checkoutOk := true, ruffOutcome := CmdOutcome.completed "x" "",
    fileExists := fun _ => true, readFile := fun _ => some "conteudo",
    snapshotWriteOk := fun _ => true, recordWriteOk := fun _ => true }

/-- Commit used to witness C3. -/
def commitW3 : Commit :=
  { hexsha := "0123456789abcdef0123456789abcdef01234567", committed_date := 2 }

/-- Entry used to witness C3: no file path. -/
def vW3 : RuffEntry :=
  { filename := none, location_row := some 1, code := some "E", message := some "m" }

/-- Context used to witness C5. -/
def ctxW5 : RepoCtx :=
  { repo_name := "r", owner := "o", branch := "main", repo_url := "u", temp_dir := "tmp",
    decode := fun _ => none, fmtDate := fun _ => "2020-01-01" }

/-- Commit environment used to witness C5: the file is absent. -/
def cenvW5 : CommitEnv :=
  { checkoutOk := true, ruffOutcome := CmdOutcome.completed "x" "",
    fileExists := fun _ => false, readFile := fun _ => none,
    snapshotWriteOk := fun _ => true, recordWriteOk := fun _ => true }

/-- Commit used to witness C5. -/
def commitW5 : Commit :=
  { hexsha := "0123456789abcdef0123456789abcdef01234567", committed_date := 2 }

/-- Entry used to witness C5: a file path that does not resolve. -/
def vW5 : RuffEntry :=
  { filename := some "a.py", location_row := some 1, code := some "E", message := some "m" }

/-- Environment used to witness the C5 invariant half. -/
def envW5 : RepoEnv :=
  { repo_url := "https://h/o/r.git", cloneOk := true, activeBranch := some "main",
    commits := [(commitW5, cenvW5)], decode := fun _ => some [vW5],
    fmtDate := fun _ => "2020-01-01", temp_dir := "tmp" }

/-- Commit environment of the C5 counterexample: everything on disk
succeeds. -/
def cenvC5 : CommitEnv :=
  { checkoutOk := true, ruffOutcome := CmdOutcome.completed "x" "",
    fileExists := fun _ => true, readFile := fun _ => some "conteudo original",
    snapshotWriteOk := fun _ => true, recordWriteOk := fun _ => true }

/-- Analyzer entry of the C5 counterexample: the violating file is itself
named like the first record file of code E. -/
def vC5 : RuffEntry :=
  { filename := some "violation_E_1.json", location_row := some 1, code := some "E",
    message := some "m" }

/-- Commit of the C5 counterexample. -/
def commitC5 : Commit :=
  { hexsha := "abcdef1234abcdef1234abcdef1234abcdef1234", committed_date := 5 }

/-- Environment of the C5 counterexample. -/
def envC5 : RepoEnv :=
  { repo_url := "https://h/o/r.git", cloneOk := true, activeBranch := some "main",
    commits := [(commitC5, cenvC5)], decode := fun _ => some [vC5],
    fmtDate := fun _ => "2020-01-01", temp_dir := "tmp" }

/-- The record written in the C5 counterexample. -/
def recC5 : ViolationRecord :=
  { project_name := "r", owner := "o", branch := "main", commit_hash := "abcdef1",
    full_commit_hash := "abcdef1234abcdef1234abcdef1234abcdef1234",
    commit_date := "2020-01-01", file_path_in_repo := "violation_E_1.json",
    local_file_name := "violation_E_1.json", line := 1, linter_code := "E",
    message := "m", repo_url := "https://h/o/r.git" }

/-- Context used to witness C6. -/
def ctxW6 : RepoCtx :=
  { repo_name := "r", owner := "o", branch := "main", repo_url := "u", temp_dir := "tmp",
    decode := fun _ => none, fmtDate := fun _ => "2020-01-01" }

/-- Commit environment used to witness C6; snapshot writes would fail, which
shows the skip branch never attempts one. -/
def cenvW6 : CommitEnv :=
  { checkoutOk := true, ruffOutcome := CmdOutcome.completed "x" "",
    fileExists := fun _ => true, readFile := fun _ => some "conteudo segundo",
    snapshotWriteOk := fun _ => false, recordWriteOk := fun _ => true }

/-- Commit used to witness C6. -/
def commitW6 : Commit :=
  { hexsha := "abcdef1234abcdef1234abcdef1234abcdef1234", committed_date := 3 }

/-- Second violation used to witness C6: same base name y.py as the snapshot
already present. -/
def vW6 : RuffEntry :=
  { filename := some "y.py", location_row := some 2, code := some "E7", message := some "m" }

/-- State used to witness C6: the first writer's snapshot of y.py present. -/
def stW6 : FS :=
  { baseDirs := ["r"], commitDirs := ["abcdef1"],
    files := [("abcdef1", "y.py", FileContent.snapshotFile "conteudo primeiro")],
    releasedWorkspace := false, saved_counter := 1, logs := [] }

/-- Commit environment of the C6 counterexample: everything on disk
succeeds. -/
def cenvC6 : CommitEnv :=
  { checkoutOk := true, ruffOutcome := CmdOutcome.completed "x" "",
    fileExists := fun _ => true, readFile := fun _ => some "conteudo original",
    snapshotWriteOk := fun _ => true, recordWriteOk := fun _ => true }

/-- The twice-reported violating file of the C6 counterexample, named like
the second record file of code E. -/
def vC6 : RuffEntry :=
  { filename := some "violation_E_2.json", location_row := some 1, code := some "E",
    message := some "m" }

/-- Commit of the C6 counterexample. -/
def commitC6 : Commit :=
  { hexsha := "abcdef1234abcdef1234abcdef1234abcdef1234", committed_date := 5 }

/-- Environment of the C6 counterexample: two violations referencing the same
file in the same commit. -/
def envC6 : RepoEnv :=
  { repo_url := "https://h/o/r.git", cloneOk := true, activeBranch := some "main",
    commits := [(commitC6, cenvC6)], decode := fun _ => some [vC6, vC6],
    fmtDate := fun _ => "2020-01-01", temp_dir := "tmp" }

/-- The record written twice in the C6 counterexample. -/
def recC6 : ViolationRecord :=
  { project_name := "r", owner := "o", branch := "main", commit_hash := "abcdef1",
    full_commit_hash := "abcdef1234abcdef1234abcdef1234abcdef1234",
    commit_date := "2020-01-01", file_path_in_repo := "violation_E_2.json",
    local_file_name := "violation_E_2.json", line := 1, linter_code := "E",
    message := "m", repo_url := "https://h/o/r.git" }

/-- Context used to witness C2. -/
def ctxW2 : RepoCtx :=
  { repo_name := "r", owner := "o", branch := "main", repo_url := "u", temp_dir := "tmp",
    decode := fun _ => none, fmtDate := fun _ => "2020-01-01" }

/-- Commit environment used to witness C2: record writes fail. -/
def cenvW2 : CommitEnv :=
  { checkoutOk := true, ruffOutcome := CmdOutcome.completed "x" "",
    fileExists := fun _ => true, readFile := fun _ => some "conteudo",
    snapshotWriteOk := fun _ => true, recordWriteOk := fun _ => false }

/-- Commit used to witness C2. -/
def commitW2 : Commit :=
  { hexsha := "abcdef1234abcdef1234abcdef1234abcdef1234", committed_date := 1 }

/-- Violation used to witness C2. -/
def vW2 : RuffEntry :=
  { filename := some "a.py", location_row := some 9, code := some "E2", message := some "m" }

/-- Commit environment of the C2 counterexample: the snapshot write of a.py
raises. -/
def cenvC2 : CommitEnv :=
  { checkoutOk := true, ruffOutcome := CmdOutcome.completed "x" "",
    fileExists := fun _ => true, readFile := fun _ => some "conteudo",
    snapshotWriteOk := fun n => !(n == "a.py"), recordWriteOk := fun _ => true }

/-- First violation of the C2 counterexample, whose snapshot write fails. -/
def vC2a : RuffEntry :=
  { filename := some "a.py", location_row := some 1, code := some "E1", message := some "m1" }

/-- Sibling violation of the C2 counterexample, never reached. -/
def vC2b : RuffEntry :=
  { filename := some "b.py", location_row := some 2, code := some "E2", message := some "m2" }

/-- Commit of the C2 counterexample. -/
def commitC2 : Commit :=
  { hexsha := "abcdef1234abcdef1234abcdef1234abcdef1234", committed_date := 0 }

/-- Environment of the C2 counterexample. -/
def envC2 : RepoEnv :=
  { repo_url := "https://h/o/r.git", cloneOk := true, activeBranch := some "main",
    commits := [(commitC2, cenvC2)], decode := fun _ => some [vC2a, vC2b],
    fmtDate := fun _ => "2020-01-01", temp_dir := "tmp" }

/-- Context used to witness C4. -/
def ctxW4 : RepoCtx :=
  { repo_name := "r", owner := "o", branch := "main", repo_url := "u", temp_dir := "tmp",
    decode := fun _ => none, fmtDate := fun _ => "2020-01-01" }

/-- Commit environment used to witness C4: everything succeeds. -/
def cenvW4 : CommitEnv :=
  { checkoutOk := true, ruffOutcome := CmdOutcome.completed "x" "",
    fileExists := fun _ => true, readFile := fun _ => some "conteudo",
    snapshotWriteOk := fun _ => true, recordWriteOk := fun _ => true }

/-- Commit used to witness C4. -/
def commitW4 : Commit :=
  { hexsha := "abcdef1234abcdef1234abcdef1234abcdef1234", committed_date := 4 }

/-- First violation used to witness C4. -/
def vW4a : RuffEntry :=
  { filename := some "a.py", location_row := some 1, code := some "E501", message := some "m1" }

/-- Second violation used to witness C4, same code, different file. -/
def vW4b : RuffEntry :=
  { filename := some "b.py", location_row := some 2, code := some "E501", message := some "m2" }

/-- Violation list used to witness C4. -/
def vsW4 : List RuffEntry := [vW4a, vW4b]

theorem keyExists_cons (e : String × String × FileContent) (rest : List (String × String × FileContent)) (s n : String) :
    keyExists (e :: rest) s n = ((e.1 = s && e.2.1 = n) || keyExists rest s n) := rfl

theorem setFile_of_keyExists_eq_false {fs : List (String × String × FileContent)} {s n : String} (c : FileContent) (h : keyExists fs s n = false) :
    setFile fs s n c = fs ++ [(s, n, c)] := by
  induction fs with
  | nil => rfl
  | cons e rest ih =>
    rw [keyExists_cons] at h
    simp only [Bool.or_eq_false_iff, Bool.and_eq_false_iff] at h
    obtain ⟨h1, h2⟩ := h
    have hne : ¬(e.1 = s ∧ e.2.1 = n) := by
      intro hcon
      rcases h1 with h1 | h1 <;> simp [hcon.1, hcon.2] at h1
    simp only [setFile]
    rw [if_neg hne, ih h2, List.cons_append]

theorem mem_setFile {fs : List (String × String × FileContent)} {s n : String} {c : FileContent} {e : String × String × FileContent} (h : e ∈ setFile fs s n c) :
    e = (s, n, c) ∨ e ∈ fs := by
  induction fs with
  | nil => simpa [setFile] using h
  | cons f rest ih =>
    simp only [setFile] at h
    by_cases hk : f.1 = s ∧ f.2.1 = n
    · rw [if_pos hk] at h
      rcases List.mem_cons.mp h with h | h
      · exact Or.inl h
      · exact Or.inr (List.mem_cons_of_mem _ h)
    · rw [if_neg hk] at h
      rcases List.mem_cons.mp h with h | h
      · exact Or.inr (h ▸ List.mem_cons_self _ _)
      · rcases ih h with h | h
        · exact Or.inl h
        · exact Or.inr (List.mem_cons_of_mem _ h)

theorem keyExists_setFile_self (fs : List (String × String × FileContent)) (s n : String) (c : FileContent) :
    keyExists (setFile fs s n c) s n = true := by
  induction fs with
  | nil => simp [setFile, keyExists]
  | cons f rest ih =>
    simp only [setFile]
    by_cases hk : f.1 = s ∧ f.2.1 = n
    · rw [if_pos hk]; simp [keyExists_cons]
    · rw [if_neg hk]; simp [keyExists_cons, ih]

theorem keyExists_setFile_of {fs : List (String × String × FileContent)} {a b : String} (s n : String) (c : FileContent) (h : keyExists fs a b = true) :
    keyExists (setFile fs s n c) a b = true := by
  induction fs with
  | nil => simp [keyExists] at h
  | cons f rest ih =>
    rw [keyExists_cons] at h
    simp only [setFile]
    by_cases hk : f.1 = s ∧ f.2.1 = n
    · rw [if_pos hk]
      rw [keyExists_cons]
      rcases Bool.or_eq_true_iff.mp h with h1 | h1
      · simp only [Bool.and_eq_true, decide_eq_true_eq] at h1
        simp [← hk.1, ← hk.2, h1.1, h1.2]
      · simp [h1]
    · rw [if_neg hk]
      rw [keyExists_cons]
      rcases Bool.or_eq_true_iff.mp h with h1 | h1
      · simp [h1]
      · simp [ih h1]

theorem lookupFile_setFile_self (fs : List (String × String × FileContent)) (s n : String) (c : FileContent) :
    lookupFile (setFile fs s n c) s n = some c := by
  induction fs with
  | nil => simp [setFile, lookupFile]
  | cons f rest ih =>
    simp only [setFile]
    by_cases hk : f.1 = s ∧ f.2.1 = n
    · rw [if_pos hk]; simp [lookupFile]
    · rw [if_neg hk]; simp only [lookupFile, if_neg hk, ih]

theorem lookupFile_setFile_ne {a b s n : String} (fs : List (String × String × FileContent)) (c : FileContent) (h : ¬(s = a ∧ n = b)) :
    lookupFile (setFile fs s n c) a b = lookupFile fs a b := by
  induction fs with
  | nil =>
    simp only [setFile, lookupFile]
    rw [if_neg]
    intro hcon
    exact h ⟨hcon.1, hcon.2⟩
  | cons f rest ih =>
    simp only [setFile]
    by_cases hk : f.1 = s ∧ f.2.1 = n
    · rw [if_pos hk]
      simp only [lookupFile]
      rw [if_neg, if_neg]
      · intro hcon; exact h ⟨hk.1 ▸ hcon.1, hk.2 ▸ hcon.2⟩
      · intro hcon; exact h ⟨hcon.1, hcon.2⟩
    · rw [if_neg hk]
      simp only [lookupFile]
      by_cases hf : f.1 = a ∧ f.2.1 = b
      · rw [if_pos hf, if_pos hf]
      · rw [if_neg hf, if_neg hf, ih]

theorem keyExists_of_lookupFile {fs : List (String × String × FileContent)} {s n : String} {co : FileContent} (h : lookupFile fs s n = some co) :
    keyExists fs s n = true := by
  induction fs with
  | nil => simp [lookupFile] at h
  | cons f rest ih =>
    simp only [lookupFile] at h
    rw [keyExists_cons]
    by_cases hk : f.1 = s ∧ f.2.1 = n
    · simp [hk.1, hk.2]
    · rw [if_neg hk] at h
      simp [ih h]

theorem lookupFile_append_right {fs : List (String × String × FileContent)} {s n : String} (e : String × String × FileContent) (h : keyExists fs s n = false) :
    lookupFile (fs ++ [e]) s n = lookupFile [e] s n := by
  induction fs with
  | nil => rfl
  | cons f rest ih =>
    rw [keyExists_cons] at h
    simp only [Bool.or_eq_false_iff, Bool.and_eq_false_iff] at h
    obtain ⟨h1, h2⟩ := h
    have hne : ¬(f.1 = s ∧ f.2.1 = n) := by
      intro hcon
      rcases h1 with h1 | h1 <;> simp [hcon.1, hcon.2] at h1
    rw [List.cons_append]
    simp only [lookupFile]
    rw [if_neg hne, ih h2]
    simp [lookupFile]

theorem snapshot_step_frame {cenv : CommitEnv} {st : FS} {short fn content : String} {st1 : FS}
    (h : snapshot_step cenv st short fn content = some st1) :
    st1.baseDirs = st.baseDirs ∧ st1.commitDirs = st.commitDirs ∧
    st1.releasedWorkspace = st.releasedWorkspace ∧ st1.saved_counter = st.saved_counter ∧
    st1.logs = st.logs := by
  unfold snapshot_step at h
  split at h
  · cases h
    exact ⟨rfl, rfl, rfl, rfl, rfl⟩
  · split at h
    · cases h
      exact ⟨rfl, rfl, rfl, rfl, rfl⟩
    · cases h

theorem record_step_frame (ctx : RepoCtx) (commit : Commit) (cenv : CommitEnv) (i : Nat)
    (v : RuffEntry) (rel fn : String) (st : FS) :
    (exState (record_step ctx commit cenv i v rel fn st)).baseDirs = st.baseDirs ∧
    (exState (record_step ctx commit cenv i v rel fn st)).commitDirs = st.commitDirs ∧
    (exState (record_step ctx commit cenv i v rel fn st)).releasedWorkspace = st.releasedWorkspace := by
  unfold record_step
  rcases hr : v.location_row with _ | row
  · exact ⟨rfl, rfl, rfl⟩
  rcases hc : v.code with _ | code
  · exact ⟨rfl, rfl, rfl⟩
  rcases hm : v.message with _ | msg
  · exact ⟨rfl, rfl, rfl⟩
  dsimp only
  by_cases hw : cenv.recordWriteOk (recordFileName code (i + 1)) = true
  · rw [if_pos hw]
    exact ⟨rfl, rfl, rfl⟩
  · rw [if_neg hw]
    exact ⟨rfl, rfl, rfl⟩

theorem process_violation_frame (ctx : RepoCtx) (commit : Commit) (cenv : CommitEnv) (i : Nat)
    (v : RuffEntry) (st : FS) :
    (exState (process_violation ctx commit cenv i v st)).baseDirs = st.baseDirs ∧
    (exState (process_violation ctx commit cenv i v st)).commitDirs = st.commitDirs ∧
    (exState (process_violation ctx commit cenv i v st)).releasedWorkspace = st.releasedWorkspace := by
  unfold process_violation
  cases hf : v.filename with
  | none => exact ⟨rfl, rfl, rfl⟩
  | some rel =>
    dsimp only
    by_cases hex : cenv.fileExists (ctx.temp_dir ++ "/" ++ rel) = false
    · rw [if_pos hex]
      exact ⟨rfl, rfl, rfl⟩
    · rw [if_neg hex]
      cases hrd : cenv.readFile (ctx.temp_dir ++ "/" ++ rel) with
      | none => exact ⟨rfl, rfl, rfl⟩
      | some content =>
        dsimp only
        cases hsnap : snapshot_step cenv st (pyTake commit.hexsha 7) (basename rel) content with
        | none => exact ⟨rfl, rfl, rfl⟩
        | some st1 =>
          dsimp only
          obtain ⟨b1, b2, b3, _, _⟩ := snapshot_step_frame hsnap
          obtain ⟨c1, c2, c3⟩ := record_step_frame ctx commit cenv i v rel (basename rel) st1
          exact ⟨c1.trans b1, c2.trans b2, c3.trans b3⟩

theorem processViolations_frame (ctx : RepoCtx) (commit : Commit) (cenv : CommitEnv) :
    ∀ (l : List (Nat × RuffEntry)) (st : FS),
    (exState (processViolations ctx commit cenv l st)).baseDirs = st.baseDirs ∧
    (exState (processViolations ctx commit cenv l st)).commitDirs = st.commitDirs ∧
    (exState (processViolations ctx commit cenv l st)).releasedWorkspace = st.releasedWorkspace := by
  intro l
  induction l with
  | nil => intro st; exact ⟨rfl, rfl, rfl⟩
  | cons p rest ih =>
    intro st
    obtain ⟨i, v⟩ := p
    simp only [processViolations]
    cases hpv : process_violation ctx commit cenv i v st with
    | error st1 =>
      have h1 := process_violation_frame ctx commit cenv i v st
      rw [hpv] at h1
      exact h1
    | ok st1 =>
      have h1 := process_violation_frame ctx commit cenv i v st
      rw [hpv] at h1
      have h2 := ih st1
      exact ⟨h2.1.trans h1.1, h2.2.1.trans h1.2.1, h2.2.2.trans h1.2.2⟩

theorem process_commit_frame (ctx : RepoCtx) (commit : Commit) (cenv : CommitEnv) (st : FS) :
    (exState (process_commit ctx commit cenv st)).baseDirs = st.baseDirs ∧
    (exState (process_commit ctx commit cenv st)).releasedWorkspace = st.releasedWorkspace := by
  unfold process_commit
  by_cases hck : cenv.checkoutOk = false
  · rw [if_pos hck]
    exact ⟨rfl, rfl⟩
  · rw [if_neg hck]
    dsimp only
    by_cases hemp : (collect_ruff_violations cenv.ruffOutcome ctx.decode).isEmpty = true
    · rw [if_pos hemp]
      exact ⟨rfl, rfl⟩
    · rw [if_neg hemp]
      have h1 := processViolations_frame ctx commit cenv
        (collect_ruff_violations cenv.ruffOutcome ctx.decode).enum
        { st.addLog (LogMsg.analyzing (pyTake commit.hexsha 7) (ctx.fmtDate commit.committed_date)) with
          commitDirs := addDir (st.addLog (LogMsg.analyzing (pyTake commit.hexsha 7)
            (ctx.fmtDate commit.committed_date))).commitDirs (pyTake commit.hexsha 7) }
      exact ⟨h1.1, h1.2.2⟩

theorem processCommits_frame (ctx : RepoCtx) :
    ∀ (l : List (Commit × CommitEnv)) (st : FS),
    (exState (processCommits ctx l st)).baseDirs = st.baseDirs ∧
    (exState (processCommits ctx l st)).releasedWorkspace = st.releasedWorkspace := by
  intro l
  induction l with
  | nil => intro st; exact ⟨rfl, rfl⟩
  | cons p rest ih =>
    intro st
    obtain ⟨c, cenv⟩ := p
    simp only [processCommits]
    cases hpc : process_commit ctx c cenv st with
    | error st1 =>
      have h1 := process_commit_frame ctx c cenv st
      rw [hpc] at h1
      exact h1
    | ok st1 =>
      have h1 := process_commit_frame ctx c cenv st
      rw [hpc] at h1
      have h2 := ih st1
      exact ⟨h2.1.trans h1.1, h2.2.trans h1.2⟩

theorem recordsHaveFiles_nil : recordsHaveFiles [] := by
  intro e he
  cases he

theorem recordsHaveFiles_setFile_snapshot {fs : List (String × String × FileContent)}
    (s n t : String) (h : recordsHaveFiles fs) :
    recordsHaveFiles (setFile fs s n (FileContent.snapshotFile t)) := by
  intro e he r hr
  rcases mem_setFile he with he1 | he1
  · rw [he1] at hr
    cases hr
  · exact keyExists_setFile_of s n _ (h e he1 r hr)

theorem recordsHaveFiles_setFile_record {fs : List (String × String × FileContent)}
    {s : String} (n : String) {r0 : ViolationRecord}
    (h : recordsHaveFiles fs) (hk : keyExists fs s r0.local_file_name = true) :
    recordsHaveFiles (setFile fs s n (FileContent.recordFile r0)) := by
  intro e he r hr
  rcases mem_setFile he with he1 | he1
  · rw [he1] at hr ⊢
    cases hr
    exact keyExists_setFile_of s n _ hk
  · exact keyExists_setFile_of s n _ (h e he1 r hr)

theorem snapshot_step_keyExists {cenv : CommitEnv} {st : FS} {short fn content : String}
    {st1 : FS} (h : snapshot_step cenv st short fn content = some st1) :
    keyExists st1.files short fn = true := by
  unfold snapshot_step at h
  split at h
  · rename_i hk
    cases h
    exact hk
  · split at h
    · cases h
      exact keyExists_setFile_self _ _ _ _
    · cases h

theorem snapshot_step_records {cenv : CommitEnv} {st : FS} {short fn content : String}
    {st1 : FS} (h : snapshot_step cenv st short fn content = some st1)
    (hrec : recordsHaveFiles st.files) : recordsHaveFiles st1.files := by
  unfold snapshot_step at h
  split at h
  · cases h
    exact hrec
  · split at h
    · cases h
      exact recordsHaveFiles_setFile_snapshot _ _ _ hrec
    · cases h

theorem record_step_records (ctx : RepoCtx) (commit : Commit) (cenv : CommitEnv) (i : Nat)
    (v : RuffEntry) (rel fn : String) (st : FS)
    (hrec : recordsHaveFiles st.files)
    (hk : keyExists st.files (pyTake commit.hexsha 7) fn = true) :
    recordsHaveFiles (exState (record_step ctx commit cenv i v rel fn st)).files := by
  unfold record_step
  rcases hr : v.location_row with _ | row
  · exact hrec
  rcases hc : v.code with _ | code
  · exact hrec
  rcases hm : v.message with _ | msg
  · exact hrec
  dsimp only
  by_cases hw : cenv.recordWriteOk (recordFileName code (i + 1)) = true
  · rw [if_pos hw]
    exact recordsHaveFiles_setFile_record _ hrec hk
  · rw [if_neg hw]
    exact hrec

theorem process_violation_records (ctx : RepoCtx) (commit : Commit) (cenv : CommitEnv)
    (i : Nat) (v : RuffEntry) (st : FS) (hrec : recordsHaveFiles st.files) :
    recordsHaveFiles (exState (process_violation ctx commit cenv i v st)).files := by
  unfold process_violation
  cases hf : v.filename with
  | none => exact hrec
  | some rel =>
    dsimp only
    by_cases hex : cenv.fileExists (ctx.temp_dir ++ "/" ++ rel) = false
    · rw [if_pos hex]
      exact hrec
    · rw [if_neg hex]
      cases hrd : cenv.readFile (ctx.temp_dir ++ "/" ++ rel) with
      | none => exact hrec
      | some content =>
        dsimp only
        cases hsnap : snapshot_step cenv st (pyTake commit.hexsha 7) (basename rel) content with
        | none => exact hrec
        | some st1 =>
          dsimp only
          exact record_step_records ctx commit cenv i v rel (basename rel) st1
            (snapshot_step_records hsnap hrec) (snapshot_step_keyExists hsnap)

theorem processViolations_records (ctx : RepoCtx) (commit : Commit) (cenv : CommitEnv) :
    ∀ (l : List (Nat × RuffEntry)) (st : FS), recordsHaveFiles st.files →
    recordsHaveFiles (exState (processViolations ctx commit cenv l st)).files := by
  intro l
  induction l with
  | nil => intro st h; exact h
  | cons p rest ih =>
    intro st h
    obtain ⟨i, v⟩ := p
    simp only [processViolations]
    cases hpv : process_violation ctx commit cenv i v st with
    | error st1 =>
      have h1 := process_violation_records ctx commit cenv i v st h
      rw [hpv] at h1
      exact h1
    | ok st1 =>
      have h1 := process_violation_records ctx commit cenv i v st h
      rw [hpv] at h1
      exact ih st1 h1

theorem process_commit_records (ctx : RepoCtx) (commit : Commit) (cenv : CommitEnv) (st : FS)
    (hrec : recordsHaveFiles st.files) :
    recordsHaveFiles (exState (process_commit ctx commit cenv st)).files := by
  unfold process_commit
  by_cases hck : cenv.checkoutOk = false
  · rw [if_pos hck]
    exact hrec
  · rw [if_neg hck]
    dsimp only
    by_cases hemp : (collect_ruff_violations cenv.ruffOutcome ctx.decode).isEmpty = true
    · rw [if_pos hemp]
      exact hrec
    · rw [if_neg hemp]
      exact processViolations_records ctx commit cenv _ _ hrec

theorem processCommits_records (ctx : RepoCtx) :
    ∀ (l : List (Commit × CommitEnv)) (st : FS), recordsHaveFiles st.files →
    recordsHaveFiles (exState (processCommits ctx l st)).files := by
  intro l
  induction l with
  | nil => intro st h; exact h
  | cons p rest ih =>
    intro st h
    obtain ⟨c, cenv⟩ := p
    simp only [processCommits]
    cases hpc : process_commit ctx c cenv st with
    | error st1 =>
      have h1 := process_commit_records ctx c cenv st h
      rw [hpc] at h1
      exact h1
    | ok st1 =>
      have h1 := process_commit_records ctx c cenv st h
      rw [hpc] at h1
      exact ih st1 h1

theorem mine_repository_records (env : RepoEnv) :
    recordsHaveFiles ((mine_repository env).state.files) := by
  unfold mine_repository
  by_cases hc : env.cloneOk = false
  · rw [if_pos hc]
    intro e he
    cases he
  · rw [if_neg hc]
    have h := processCommits_records (mineCtx env) env.commits (mineStart env)
      (by intro e he; cases he)
    unfold finishMine
    cases hpc : processCommits (mineCtx env) env.commits (mineStart env) with
    | ok st1 =>
      rw [hpc] at h
      exact h
    | error st1 =>
      rw [hpc] at h
      exact h

theorem natDigitsAux_eval : ∀ (fuel n : Nat), n ≤ fuel → evalDigits (natDigitsAux fuel n) = n := by
  intro fuel
  induction fuel with
  | zero =>
    intro n h
    have hn : n = 0 := Nat.le_zero.mp h
    subst hn
    rfl
  | succ f ih =>
    intro n h
    cases n with
    | zero => rfl
    | succ m =>
      simp only [natDigitsAux, evalDigits]
      have hdiv : (m + 1) / 10 ≤ f := by
        have h1 : (m + 1) / 10 < m + 1 := Nat.div_lt_self (Nat.succ_pos m) (by norm_num)
        omega
      rw [ih ((m + 1) / 10) hdiv]
      omega

theorem natDigitsAux_lt : ∀ (fuel n d : Nat), d ∈ natDigitsAux fuel n → d < 10 := by
  intro fuel
  induction fuel with
  | zero =>
    intro n d h
    simp [natDigitsAux] at h
  | succ f ih =>
    intro n d h
    cases n with
    | zero => simp [natDigitsAux] at h
    | succ m =>
      simp only [natDigitsAux, List.mem_cons] at h
      rcases h with h | h
      · rw [h]
        exact Nat.mod_lt _ (by norm_num)
      · exact ih _ _ h

theorem digitChar_fin_inj : ∀ a b : Fin 10, Nat.digitChar a.val = Nat.digitChar b.val → a = b := by
  decide

theorem digitChar_fin_isDigit : ∀ a : Fin 10, (Nat.digitChar a.val).isDigit = true := by
  decide

theorem digitChar_inj_lt {a b : Nat} (ha : a < 10) (hb : b < 10)
    (h : Nat.digitChar a = Nat.digitChar b) : a = b := by
  have h2 := digitChar_fin_inj ⟨a, ha⟩ ⟨b, hb⟩ h
  simpa using congrArg Fin.val h2

theorem map_digitChar_inj : ∀ (l1 l2 : List Nat), (∀ d ∈ l1, d < 10) → (∀ d ∈ l2, d < 10) →
    l1.map Nat.digitChar = l2.map Nat.digitChar → l1 = l2 := by
  intro l1
  induction l1 with
  | nil =>
    intro l2 _ _ h
    cases l2 with
    | nil => rfl
    | cons b t => simp at h
  | cons a t ih =>
    intro l2 h1 h2 h
    cases l2 with
    | nil => simp at h
    | cons b t2 =>
      simp only [List.map_cons, List.cons.injEq] at h
      rw [digitChar_inj_lt (h1 a (List.mem_cons_self _ _)) (h2 b (List.mem_cons_self _ _)) h.1,
        ih t2 (fun d hd => h1 d (List.mem_cons_of_mem _ hd))
          (fun d hd => h2 d (List.mem_cons_of_mem _ hd)) h.2]

theorem natStr_inj_pos {m n : Nat} (hm : 0 < m) (hn : 0 < n) (h : natStr m = natStr n) :
    m = n := by
  unfold natStr at h
  rw [if_neg (by omega), if_neg (by omega)] at h
  have hdata : ((natDigitsAux m m).reverse).map Nat.digitChar =
      ((natDigitsAux n n).reverse).map Nat.digitChar := congrArg String.data h
  have hrev : (natDigitsAux m m).reverse = (natDigitsAux n n).reverse := by
    refine map_digitChar_inj _ _ ?_ ?_ hdata
    · intro d hd
      exact natDigitsAux_lt m m d (List.mem_reverse.mp hd)
    · intro d hd
      exact natDigitsAux_lt n n d (List.mem_reverse.mp hd)
  have hlist : natDigitsAux m m = natDigitsAux n n := List.reverse_injective hrev
  have he1 := natDigitsAux_eval m m le_rfl
  have he2 := natDigitsAux_eval n n le_rfl
  rw [hlist] at he1
  omega

theorem natStr_data_isDigit (n : Nat) : ∀ c ∈ (natStr n).data, c.isDigit = true := by
  unfold natStr
  by_cases h : n = 0
  · rw [if_pos h]
    intro c hc
    have h0 : ("0" : String).data = ['0'] := rfl
    rw [h0] at hc
    simp only [List.mem_singleton] at hc
    rw [hc]
    decide
  · rw [if_neg h]
    intro c hc
    have hd : (String.mk (((natDigitsAux n n).reverse).map Nat.digitChar)).data =
        ((natDigitsAux n n).reverse).map Nat.digitChar := rfl
    rw [hd, List.mem_map] at hc
    obtain ⟨d, hdm, hdc⟩ := hc
    have hlt := natDigitsAux_lt n n d (List.mem_reverse.mp hdm)
    rw [← hdc]
    exact digitChar_fin_isDigit ⟨d, hlt⟩

theorem str_data_append (a b : String) : (a ++ b).data = a.data ++ b.data := by
  cases a
  cases b
  rfl

theorem digits_marker_cancel : ∀ (d1 d2 r1 r2 : List Char),
    (∀ ch ∈ d1, ch.isDigit = true) → (∀ ch ∈ d2, ch.isDigit = true) →
    d1 ++ ('_' :: r1) = d2 ++ ('_' :: r2) → d1 = d2 ∧ r1 = r2 := by
  intro d1
  induction d1 with
  | nil =>
    intro d2 r1 r2 _ h2 h
    cases d2 with
    | nil =>
      simp only [List.nil_append, List.cons.injEq] at h
      exact ⟨rfl, h.2⟩
    | cons b t =>
      simp only [List.nil_append, List.cons_append, List.cons.injEq] at h
      have hb := h2 b (List.mem_cons_self _ _)
      rw [← h.1] at hb
      simp at hb
  | cons a t ih =>
    intro d2 r1 r2 h1 h2 h
    cases d2 with
    | nil =>
      simp only [List.cons_append, List.nil_append, List.cons.injEq] at h
      have ha := h1 a (List.mem_cons_self _ _)
      rw [h.1] at ha
      simp at ha
    | cons b t2 =>
      simp only [List.cons_append, List.cons.injEq] at h
      obtain ⟨hab, htail⟩ := h
      obtain ⟨ht, hr⟩ := ih t2 r1 r2 (fun ch hch => h1 ch (List.mem_cons_of_mem _ hch))
        (fun ch hch => h2 ch (List.mem_cons_of_mem _ hch)) htail
      exact ⟨by rw [hab, ht], hr⟩

theorem recordFileName_index_inj {c1 c2 : String} {i j : Nat} (hi : 0 < i) (hj : 0 < j)
    (h : recordFileName c1 i = recordFileName c2 j) : i = j := by
  unfold recordFileName at h
  have hd := congrArg String.data h
  simp only [str_data_append, List.append_assoc] at hd
  have hd2 := List.append_cancel_left hd
  have hd3 := congrArg List.reverse hd2
  simp only [List.reverse_append, List.append_assoc] at hd3
  have hone : ("_" : String).data.reverse = ['_'] := rfl
  rw [hone] at hd3
  have hd4 := List.append_cancel_left hd3
  simp only [List.singleton_append] at hd4
  obtain ⟨hdig, _⟩ := digits_marker_cancel _ _ _ _
    (fun ch hch => natStr_data_isDigit i ch (List.mem_reverse.mp hch))
    (fun ch hch => natStr_data_isDigit j ch (List.mem_reverse.mp hch)) hd4
  have hdd : (natStr i).data = (natStr j).data := List.reverse_injective hdig
  have hstr : natStr i = natStr j := by
    have hmk : String.mk ((natStr i).data) = String.mk ((natStr j).data) := congrArg String.mk hdd
    exact hmk
  exact natStr_inj_pos hi hj hstr

theorem recordFileName_ne {c1 c2 : String} {i j : Nat} (hi : 0 < i) (hj : 0 < j)
    (hne : i ≠ j) : recordFileName c1 i ≠ recordFileName c2 j := by
  intro h
  exact hne (recordFileName_index_inj hi hj h)

theorem snapshot_step_eq_ensure {cenv : CommitEnv} {st : FS} {short fn content : String}
    (h : cenv.snapshotWriteOk fn = true) :
    snapshot_step cenv st short fn content = some (ensureSnapshot st short fn content) := by
  by_cases hk : keyExists st.files short fn = true
  · unfold snapshot_step ensureSnapshot
    rw [if_pos hk, if_pos hk]
  · unfold snapshot_step ensureSnapshot
    rw [if_neg hk, if_neg hk, if_pos h]

theorem ensureSnapshot_frame (st : FS) (short fn content : String) :
    (ensureSnapshot st short fn content).baseDirs = st.baseDirs ∧
    (ensureSnapshot st short fn content).commitDirs = st.commitDirs ∧
    (ensureSnapshot st short fn content).releasedWorkspace = st.releasedWorkspace ∧
    (ensureSnapshot st short fn content).saved_counter = st.saved_counter ∧
    (ensureSnapshot st short fn content).logs = st.logs := by
  unfold ensureSnapshot
  split <;> exact ⟨rfl, rfl, rfl, rfl, rfl⟩

theorem lookup_ensureSnapshot_present {st : FS} {s n : String} {co : FileContent}
    (short fn content : String) (h : lookupFile st.files s n = some co) :
    lookupFile (ensureSnapshot st short fn content).files s n = some co := by
  unfold ensureSnapshot
  by_cases hk : keyExists st.files short fn = true
  · rw [if_pos hk]
    exact h
  · rw [if_neg hk]
    by_cases hsame : short = s ∧ fn = n
    · exfalso
      apply hk
      rw [hsame.1, hsame.2]
      exact keyExists_of_lookupFile h
    · have hlk : lookupFile (setFile st.files short fn (FileContent.snapshotFile content)) s n =
          lookupFile st.files s n := lookupFile_setFile_ne _ _ hsame
      rw [show ({ st with files := setFile st.files short fn (FileContent.snapshotFile content) } : FS).files =
        setFile st.files short fn (FileContent.snapshotFile content) from rfl]
      rw [hlk]
      exact h

theorem goodEntry_spec {ctx : RepoCtx} {cenv : CommitEnv} {v : RuffEntry}
    (h : goodEntry ctx cenv v = true) :
    ∃ rel content row code msg, v.filename = some rel ∧
      cenv.fileExists (ctx.temp_dir ++ "/" ++ rel) = true ∧
      cenv.readFile (ctx.temp_dir ++ "/" ++ rel) = some content ∧
      v.location_row = some row ∧ v.code = some code ∧ v.message = some msg := by
  unfold goodEntry at h
  cases hf : v.filename with
  | none =>
    rw [hf] at h
    cases h
  | some rel =>
    rw [hf] at h
    simp only [Bool.and_eq_true, Option.isSome_iff_exists] at h
    obtain ⟨⟨⟨⟨hex, content, hrd⟩, row, hrow⟩, code, hcode⟩, msg, hmsg⟩ := h
    exact ⟨rel, content, row, code, msg, rfl, hex, hrd, hrow, hcode, hmsg⟩

theorem process_violation_good (ctx : RepoCtx) (commit : Commit) (cenv : CommitEnv) (i : Nat)
    (v : RuffEntry) (st : FS) {rel content : String} {row : Nat} {code msg : String}
    (hfn : v.filename = some rel)
    (hex : cenv.fileExists (ctx.temp_dir ++ "/" ++ rel) = true)
    (hrd : cenv.readFile (ctx.temp_dir ++ "/" ++ rel) = some content)
    (hrow : v.location_row = some row) (hcode : v.code = some code)
    (hmsg : v.message = some msg)
    (hsnap : cenv.snapshotWriteOk (basename rel) = true)
    (hrecw : cenv.recordWriteOk (recordFileName code (i + 1)) = true) :
    process_violation ctx commit cenv i v st =
      Except.ok (goodStepState ctx commit i st rel content row code msg) := by
  unfold process_violation
  rw [hfn]
  dsimp only
  have hex1 : ¬(cenv.fileExists (ctx.temp_dir ++ "/" ++ rel) = false) := by
    rw [hex]
    simp
  rw [if_neg hex1, hrd]
  dsimp only
  rw [snapshot_step_eq_ensure hsnap]
  dsimp only
  unfold record_step
  rw [hrow, hcode, hmsg]
  dsimp only
  rw [if_pos hrecw]
  rfl

theorem goodStepState_lookup_self (ctx : RepoCtx) (commit : Commit) (i : Nat) (st : FS)
    (rel content : String) (row : Nat) (code msg : String) :
    lookupFile (goodStepState ctx commit i st rel content row code msg).files
      (pyTake commit.hexsha 7) (recordFileName code (i + 1)) =
      some (FileContent.recordFile (mkRecord ctx commit rel (basename rel) row code msg)) := by
  unfold goodStepState
  exact lookupFile_setFile_self _ _ _ _

theorem goodStepState_lookup_pres {s n : String} {co : FileContent} (ctx : RepoCtx)
    (commit : Commit) (i : Nat) (st : FS) (rel content : String) (row : Nat) (code msg : String)
    (h : lookupFile st.files s n = some co) (hne : n ≠ recordFileName code (i + 1)) :
    lookupFile (goodStepState ctx commit i st rel content row code msg).files s n = some co := by
  unfold goodStepState
  have hset : ¬(pyTake commit.hexsha 7 = s ∧ recordFileName code (i + 1) = n) := by
    intro hcon
    exact hne hcon.2.symm
  rw [show ({ ensureSnapshot st (pyTake commit.hexsha 7) (basename rel) content with
      files := setFile (ensureSnapshot st (pyTake commit.hexsha 7) (basename rel) content).files
        (pyTake commit.hexsha 7) (recordFileName code (i + 1))
        (FileContent.recordFile (mkRecord ctx commit rel (basename rel) row code msg)),
      saved_counter :=
        (ensureSnapshot st (pyTake commit.hexsha 7) (basename rel) content).saved_counter + 1 } : FS).files =
    setFile (ensureSnapshot st (pyTake commit.hexsha 7) (basename rel) content).files
      (pyTake commit.hexsha 7) (recordFileName code (i + 1))
      (FileContent.recordFile (mkRecord ctx commit rel (basename rel) row code msg)) from rfl]
  rw [lookupFile_setFile_ne _ _ hset]
  exact lookup_ensureSnapshot_present _ _ _ h

theorem goodStepState_counter (ctx : RepoCtx) (commit : Commit) (i : Nat) (st : FS)
    (rel content : String) (row : Nat) (code msg : String) :
    (goodStepState ctx commit i st rel content row code msg).saved_counter =
      st.saved_counter + 1 := by
  unfold goodStepState
  have h := (ensureSnapshot_frame st (pyTake commit.hexsha 7) (basename rel) content).2.2.2.1
  simp only []
  rw [h]

theorem processViolations_good (ctx : RepoCtx) (commit : Commit) (cenv : CommitEnv) (c : String)
    (hsnapAll : ∀ nm, cenv.snapshotWriteOk nm = true)
    (hrecAll : ∀ nm, cenv.recordWriteOk nm = true) :
    ∀ (vs : List RuffEntry) (k : Nat) (st : FS),
    (∀ v ∈ vs, goodEntry ctx cenv v = true) →
    (∀ v ∈ vs, v.code = some c) →
    ∃ st', processViolations ctx commit cenv (List.enumFrom k vs) st = Except.ok st' ∧
      (∀ s n co, lookupFile st.files s n = some co →
        (∀ j, j < vs.length → n ≠ recordFileName c (k + j + 1)) →
        lookupFile st'.files s n = some co) ∧
      (∀ j (hj : j < vs.length),
        ∃ r, lookupFile st'.files (pyTake commit.hexsha 7) (recordFileName c (k + j + 1)) =
            some (FileContent.recordFile r) ∧
          r.linter_code = c ∧
          r.line = ((vs.get ⟨j, hj⟩).location_row).getD 0 ∧
          r.file_path_in_repo = ((vs.get ⟨j, hj⟩).filename).getD "" ∧
          r.local_file_name = basename (((vs.get ⟨j, hj⟩).filename).getD "")) := by
  intro vs
  induction vs with
  | nil =>
    intro k st _ _
    refine ⟨st, rfl, fun s n co h _ => h, fun j hj => absurd hj (by simp)⟩
  | cons v rest ih =>
    intro k st hgood hcode
    obtain ⟨rel, content, row, code0, msg, hfn, hex, hrd, hrow, hc0, hmsg⟩ :=
      goodEntry_spec (hgood v (List.mem_cons_self _ _))
    have hcv := hcode v (List.mem_cons_self _ _)
    rw [hc0] at hcv
    have hceq : code0 = c := Option.some.inj hcv
    subst hceq
    have hpv := process_violation_good ctx commit cenv k v st hfn hex hrd hrow hc0 hmsg
      (hsnapAll _) (hrecAll _)
    obtain ⟨st', hrun, hpres, hrecs⟩ := ih (k + 1)
      (goodStepState ctx commit k st rel content row code0 msg)
      (fun w hw => hgood w (List.mem_cons_of_mem _ hw))
      (fun w hw => hcode w (List.mem_cons_of_mem _ hw))
    refine ⟨st', ?_, ?_, ?_⟩
    · have henum : List.enumFrom k (v :: rest) = (k, v) :: List.enumFrom (k + 1) rest := rfl
      rw [henum]
      simp only [processViolations]
      rw [hpv]
      exact hrun
    · intro s n co hco hn
      have h0 := hn 0 (by simp)
      rw [Nat.add_zero] at h0
      apply hpres
      · exact goodStepState_lookup_pres ctx commit k st rel content row code0 msg hco h0
      · intro j hj
        have hj1 := hn (j + 1) (by simpa using Nat.succ_lt_succ hj)
        have harith : k + 1 + j + 1 = k + (j + 1) + 1 := by omega
        rw [harith]
        exact hj1
    · intro j hj
      cases j with
      | zero =>
        refine ⟨mkRecord ctx commit rel (basename rel) row code0 msg, ?_, rfl, ?_, ?_, ?_⟩
        · have hbase := goodStepState_lookup_self ctx commit k st rel content row code0 msg
          have hkeep := hpres (pyTake commit.hexsha 7) (recordFileName code0 (k + 1)) _ hbase
            (fun j2 hj2 => recordFileName_ne (by omega) (by omega) (by omega))
          rw [Nat.add_zero]
          exact hkeep
        · have hget : ((v :: rest).get ⟨0, hj⟩) = v := rfl
          rw [hget, hrow]
          rfl
        · have hget : ((v :: rest).get ⟨0, hj⟩) = v := rfl
          rw [hget, hfn]
          rfl
        · have hget : ((v :: rest).get ⟨0, hj⟩) = v := rfl
          rw [hget, hfn]
          rfl
      | succ j2 =>
        have hj2 : j2 < rest.length := by
          simpa using Nat.lt_of_succ_lt_succ hj
        obtain ⟨r, hl, h1, h2, h3, h4⟩ := hrecs j2 hj2
        refine ⟨r, ?_, h1, ?_, ?_, ?_⟩
        · have harith : k + (j2 + 1) + 1 = k + 1 + j2 + 1 := by omega
          rw [harith]
          exact hl
        · exact h2
        · exact h3
        · exact h4

theorem recordFileNames_range_nodup (c : String) (len : Nat) :
    ((List.range len).map (fun j => recordFileName c (j + 1))).Nodup := by
  refine List.Nodup.map ?_ (List.nodup_range len)
  intro a b hab
  have h := recordFileName_index_inj (Nat.succ_pos a) (Nat.succ_pos b) hab
  omega

theorem recordFileNames_pairs_nodup : ∀ (l : List (Nat × String)), (∀ p ∈ l, 0 < p.1) →
    (l.map Prod.fst).Nodup → (l.map (fun p => recordFileName p.2 p.1)).Nodup := by
  intro l
  induction l with
  | nil =>
    intro _ _
    simp
  | cons p rest ih =>
    intro hpos hnd
    simp only [List.map_cons, List.nodup_cons] at hnd ⊢
    obtain ⟨hnotin, hnd2⟩ := hnd
    refine ⟨?_, ih (fun q hq => hpos q (List.mem_cons_of_mem _ hq)) hnd2⟩
    intro hmem
    rw [List.mem_map] at hmem
    obtain ⟨q, hq, heq⟩ := hmem
    have hi := recordFileName_index_inj (hpos q (List.mem_cons_of_mem _ hq))
      (hpos p (List.mem_cons_self _ _)) heq
    apply hnotin
    rw [← hi]
    exact List.mem_map_of_mem Prod.fst hq

/-- C8: a command execution that exceeds the wall clock timeout (60 seconds,
the default) makes run_command return the fixed sentinel pair of empty stdout
and the timeout message, discarding whatever partial output the process had
produced, and collect_ruff_violations treats that result exactly as no usable
output, returning the empty violation sequence. -/
theorem c8_timeout_distinguished :
    run_command_timeout = 60 ∧
    (∀ outSoFar errSoFar, run_command (CmdOutcome.timedOut outSoFar errSoFar) =
      ("", "⏱ Timeout ao executar comando")) ∧
    (∀ outSoFar errSoFar decode,
      collect_ruff_violations (CmdOutcome.timedOut outSoFar errSoFar) decode = []) := by
  refine ⟨rfl, fun _ _ => rfl, fun outSoFar errSoFar decode => ?_⟩
  have hcond : pyStrip (run_command (CmdOutcome.timedOut outSoFar errSoFar)).1 = "" := rfl
  unfold collect_ruff_violations
  dsimp only
  rw [if_pos hcond]

/-- C7: when the collector returns the empty sequence for a commit that was
checked out, the persist step performs no filesystem write at all: no file
and no commit directory is created, no record is saved; only the analyzing
line is logged. -/
theorem c7_no_writes_on_empty (ctx : RepoCtx) (commit : Commit) (cenv : CommitEnv) (st : FS)
    (hck : cenv.checkoutOk = true)
    (hempty : collect_ruff_violations cenv.ruffOutcome ctx.decode = []) :
    process_commit ctx commit cenv st = Except.ok
      (st.addLog (LogMsg.analyzing (pyTake commit.hexsha 7) (ctx.fmtDate commit.committed_date))) ∧
    (st.addLog (LogMsg.analyzing (pyTake commit.hexsha 7)
      (ctx.fmtDate commit.committed_date))).files = st.files ∧
    (st.addLog (LogMsg.analyzing (pyTake commit.hexsha 7)
      (ctx.fmtDate commit.committed_date))).commitDirs = st.commitDirs ∧
    (st.addLog (LogMsg.analyzing (pyTake commit.hexsha 7)
      (ctx.fmtDate commit.committed_date))).baseDirs = st.baseDirs ∧
    (st.addLog (LogMsg.analyzing (pyTake commit.hexsha 7)
      (ctx.fmtDate commit.committed_date))).saved_counter = st.saved_counter := by
  refine ⟨?_, rfl, rfl, rfl, rfl⟩
  unfold process_commit
  have hck1 : ¬(cenv.checkoutOk = false) := by
    rw [hck]
    simp
  rw [if_neg hck1]
  dsimp only
  rw [hempty]
  rfl

theorem c7_witness :
    process_commit ctxW7 commitW7 cenvW7 FS.init = Except.ok
      (FS.init.addLog (LogMsg.analyzing (pyTake commitW7.hexsha 7)
        (ctxW7.fmtDate commitW7.committed_date))) ∧
    (FS.init.addLog (LogMsg.analyzing (pyTake commitW7.hexsha 7)
      (ctxW7.fmtDate commitW7.committed_date))).files = FS.init.files ∧
    (FS.init.addLog (LogMsg.analyzing (pyTake commitW7.hexsha 7)
      (ctxW7.fmtDate commitW7.committed_date))).commitDirs = FS.init.commitDirs ∧
    (FS.init.addLog (LogMsg.analyzing (pyTake commitW7.hexsha 7)
      (ctxW7.fmtDate commitW7.committed_date))).baseDirs = FS.init.baseDirs ∧
    (FS.init.addLog (LogMsg.analyzing (pyTake commitW7.hexsha 7)
      (ctxW7.fmtDate commitW7.committed_date))).saved_counter = FS.init.saved_counter :=
  c7_no_writes_on_empty ctxW7 commitW7 cenvW7 FS.init rfl rfl

/-- C10: whenever the clone succeeds, the project base directory is created
right after the clone and before any commit is processed, so the base
directory list of the final state is exactly the project name, whatever the
commits yield — in particular also when every commit yields zero violations
and no commit directory is ever created. -/
theorem c10_base_dir_created (env : RepoEnv) (h : env.cloneOk = true) :
    (mine_repository env).state.baseDirs = [repoNameOf env.repo_url] := by
  unfold mine_repository
  have h1 : ¬(env.cloneOk = false) := by
    rw [h]
    simp
  rw [if_neg h1]
  have hpcs := (processCommits_frame (mineCtx env) env.commits (mineStart env)).1
  have hstart : (mineStart env).baseDirs = [repoNameOf env.repo_url] := by
    show (if repoNameOf env.repo_url ∈ ([] : List String) then ([] : List String)
      else [] ++ [repoNameOf env.repo_url]) = [repoNameOf env.repo_url]
    rw [if_neg (List.not_mem_nil _)]
    rfl
  unfold finishMine
  cases hpc : processCommits (mineCtx env) env.commits (mineStart env) with
  | ok st1 =>
    rw [hpc] at hpcs
    simp only [exState] at hpcs
    simp only [MineResult.state]
    show st1.baseDirs = [repoNameOf env.repo_url]
    exact hpcs.trans hstart
  | error st1 =>
    rw [hpc] at hpcs
    simp only [exState] at hpcs
    simp only [MineResult.state]
    exact hpcs.trans hstart

theorem c10_witness : (mine_repository envW10).state.baseDirs = ["r"] := by
  have h := c10_base_dir_created envW10 rfl
  rw [h]
  rfl

/-- C1 amended: the ephemeral workspace is released exactly on the non-crash
outcomes of mine_repository — on normal completion and on clone failure — and
it is not released when an uncaught exception escapes the per-commit loop,
because the removal line sits after the loop with no protection. -/
theorem c1_release_amended (env : RepoEnv) :
    (mine_repository env).state.releasedWorkspace = !(mine_repository env).isCrashed := by
  unfold mine_repository
  by_cases hc : env.cloneOk = false
  · rw [if_pos hc]
    rfl
  · rw [if_neg hc]
    have hrel := (processCommits_frame (mineCtx env) env.commits (mineStart env)).2
    unfold finishMine
    cases hpc : processCommits (mineCtx env) env.commits (mineStart env) with
    | ok st1 => rfl
    | error st1 =>
      rw [hpc] at hrel
      simp only [exState] at hrel
      simp only [MineResult.state, MineResult.isCrashed]
      rw [hrel]
      rfl

/-- C1 counterexample: an invocation whose clone succeeds but where an
unexpected failure (a missing location field) is raised mid-way through the
per-commit loop returns with the workspace not released. -/
theorem c1_counterexample :
    envC1.cloneOk = true ∧ (mine_repository envC1).isCrashed = true ∧
    (mine_repository envC1).state.releasedWorkspace = false := by
  decide

/-- C9: an analyzer entry that supplies the file path of an existing file but
lacks the code field makes the record construction raise an uncaught
key-lookup error: mining of the whole repository aborts — the snapshot of the
bad entry had already been written, but neither the good sibling violation of
the same commit nor the entire second commit produces any record, no record
at all is saved, and the workspace directory leaks. -/
theorem c9_keyerror_aborts :
    (mine_repository envC9).isCrashed = true ∧
    recEntries (mine_repository envC9).state.files = [] ∧
    snapEntries (mine_repository envC9).state.files =
      [("1111111", "a.py", FileContent.snapshotFile "conteudo")] ∧
    (mine_repository envC9).state.saved_counter = 0 ∧
    (mine_repository envC9).state.releasedWorkspace = false := by
  decide

/-- C3 counterexample: on analyzer output whose single parsed entry lacks a
file path, the collector returns that entry in its sequence instead of
dropping it. -/
theorem c3_counterexample :
    collect_ruff_violations (CmdOutcome.completed "[e]" "") decodeC3 = [vC3] ∧
    vC3.filename = none := by
  decide

/-- C3 amended: parsed entries lacking a file path are not dropped by the
collector — when stdout is non-empty and decodes, collect returns every
decoded entry unchanged — and such entries are instead skipped by the
per-violation loop of mine_repository, which writes nothing for them and
moves on with the state unchanged. -/
theorem c3_amended :
    (∀ (o : CmdOutcome) (decode : String → Option (List RuffEntry)) (vs : List RuffEntry),
      pyStrip (run_command o).1 ≠ "" → decode (run_command o).1 = some vs →
      collect_ruff_violations o decode = vs) ∧
    (∀ (ctx : RepoCtx) (commit : Commit) (cenv : CommitEnv) (i : Nat) (v : RuffEntry)
      (st : FS), v.filename = none →
      process_violation ctx commit cenv i v st = Except.ok st) := by
  constructor
  · intro o decode vs hne hdec
    unfold collect_ruff_violations
    dsimp only
    rw [if_neg hne, hdec]
  · intro ctx commit cenv i v st hfn
    unfold process_violation
    rw [hfn]

theorem c3_witness :
    collect_ruff_violations (CmdOutcome.completed "[x]" "") (fun _ => some []) = [] ∧
    process_violation ctxW3 commitW3 cenvW3 0 vW3 FS.init = Except.ok FS.init :=
  ⟨c3_amended.1 (CmdOutcome.completed "[x]" "") (fun _ => some []) [] (by decide) rfl,
   c3_amended.2 ctxW3 commitW3 cenvW3 0 vW3 FS.init rfl⟩

/-- C5 amended: every violation record written by mine_repository has, in its
commit directory, a file under its local_file_name — normally the snapshot,
unless a record file written under that same name in the same directory
replaced it; and a violation whose file cannot be located in the workspace
writes neither a record nor a snapshot: the state only gains a log line. -/
theorem c5_invariant_amended :
    (∀ env : RepoEnv, recordsHaveFiles ((mine_repository env).state.files)) ∧
    (∀ (ctx : RepoCtx) (commit : Commit) (cenv : CommitEnv) (i : Nat) (v : RuffEntry)
      (st : FS) (rel : String), v.filename = some rel →
      cenv.fileExists (ctx.temp_dir ++ "/" ++ rel) = false →
      process_violation ctx commit cenv i v st =
        Except.ok (st.addLog (LogMsg.fileNotFound rel))) := by
  constructor
  · exact mine_repository_records
  · intro ctx commit cenv i v st rel hfn hex
    unfold process_violation
    rw [hfn]
    dsimp only
    rw [if_pos hex]

theorem c5_witness :
    recordsHaveFiles ((mine_repository envW5).state.files) ∧
    process_violation ctxW5 commitW5 cenvW5 0 vW5 FS.init =
      Except.ok (FS.init.addLog (LogMsg.fileNotFound "a.py")) :=
  ⟨c5_invariant_amended.1 envW5,
   c5_invariant_amended.2 ctxW5 commitW5 cenvW5 0 vW5 FS.init "a.py" rfl rfl⟩

/-- C5 counterexample: mining completes normally and writes the record whose
local_file_name is violation_E_1.json, yet no file snapshot exists anywhere
in the dataset: the record file has the same name as the violating file's
base name, so json.dump overwrote the snapshot in place. -/
theorem c5_counterexample :
    (mine_repository envC5).isCrashed = false ∧
    (mine_repository envC5).state.files =
      [("abcdef1", "violation_E_1.json", FileContent.recordFile recC5)] ∧
    snapEntries (mine_repository envC5).state.files = [] := by
  decide

/-- C6 amended: persisting a violation that references a file whose base name
already exists in the commit directory performs no snapshot write — the whole
state change is the single record write and the counter bump — and the file
under that base name keeps its content whenever the record filename differs
from the base name; a record write whose name equals the base name instead
overwrites that file. -/
theorem c6_snapshot_first_writer_amended (ctx : RepoCtx) (commit : Commit) (cenv : CommitEnv)
    (i : Nat) (v : RuffEntry) (st : FS) {rel content : String} {row : Nat} {code msg : String}
    (hfn : v.filename = some rel)
    (hex : cenv.fileExists (ctx.temp_dir ++ "/" ++ rel) = true)
    (hrd : cenv.readFile (ctx.temp_dir ++ "/" ++ rel) = some content)
    (hrow : v.location_row = some row) (hcode : v.code = some code)
    (hmsg : v.message = some msg)
    (hrecw : cenv.recordWriteOk (recordFileName code (i + 1)) = true)
    (hk : keyExists st.files (pyTake commit.hexsha 7) (basename rel) = true) :
    process_violation ctx commit cenv i v st = Except.ok
      { st with
        files := setFile st.files (pyTake commit.hexsha 7) (recordFileName code (i + 1))
                   (FileContent.recordFile (mkRecord ctx commit rel (basename rel) row code msg)),
        saved_counter := st.saved_counter + 1 } ∧
    (recordFileName code (i + 1) ≠ basename rel →
      lookupFile (setFile st.files (pyTake commit.hexsha 7) (recordFileName code (i + 1))
          (FileContent.recordFile (mkRecord ctx commit rel (basename rel) row code msg)))
        (pyTake commit.hexsha 7) (basename rel) =
      lookupFile st.files (pyTake commit.hexsha 7) (basename rel)) := by
  constructor
  · unfold process_violation
    rw [hfn]
    dsimp only
    have hex1 : ¬(cenv.fileExists (ctx.temp_dir ++ "/" ++ rel) = false) := by
      rw [hex]
      simp
    rw [if_neg hex1, hrd]
    dsimp only
    have hsnap : snapshot_step cenv st (pyTake commit.hexsha 7) (basename rel) content =
        some st := by
      unfold snapshot_step
      rw [if_pos hk]
    rw [hsnap]
    dsimp only
    unfold record_step
    rw [hrow, hcode, hmsg]
    dsimp only
    rw [if_pos hrecw]
  · intro hne
    apply lookupFile_setFile_ne
    intro hcon
    exact hne hcon.2

theorem c6_witness :
    process_violation ctxW6 commitW6 cenvW6 1 vW6 stW6 = Except.ok
      { stW6 with
        files := setFile stW6.files (pyTake commitW6.hexsha 7) (recordFileName "E7" 2)
                   (FileContent.recordFile (mkRecord ctxW6 commitW6 "y.py" (basename "y.py") 2 "E7" "m")),
        saved_counter := stW6.saved_counter + 1 } ∧
    (recordFileName "E7" 2 ≠ basename "y.py" →
      lookupFile (setFile stW6.files (pyTake commitW6.hexsha 7) (recordFileName "E7" 2)
          (FileContent.recordFile (mkRecord ctxW6 commitW6 "y.py" (basename "y.py") 2 "E7" "m")))
        (pyTake commitW6.hexsha 7) (basename "y.py") =
      lookupFile stW6.files (pyTake commitW6.hexsha 7) (basename "y.py")) :=
  c6_snapshot_first_writer_amended ctxW6 commitW6 cenvW6 1 vW6 stW6 rfl rfl rfl rfl rfl rfl
    (by decide) (by decide)

/-- C6 counterexample: the second violation referencing the same base name in
the same commit indeed performs no snapshot write, yet afterwards no snapshot
file exists at all and the first writer's content is gone: the second record
file is named violation_E_2.json, equal to the snapshot's base name, and its
json.dump overwrote the snapshot. -/
theorem c6_counterexample :
    (mine_repository envC6).isCrashed = false ∧
    (mine_repository envC6).state.files =
      [("abcdef1", "violation_E_2.json", FileContent.recordFile recC6),
        ("abcdef1", "violation_E_1.json", FileContent.recordFile recC6)] ∧
    snapEntries (mine_repository envC6).state.files = [] ∧
    (mine_repository envC6).state.saved_counter = 2 := by
  decide

theorem recEntries_ensureSnapshot (st : FS) (short fn content : String) :
    recEntries (ensureSnapshot st short fn content).files = recEntries st.files := by
  unfold ensureSnapshot
  by_cases hk : keyExists st.files short fn = true
  · rw [if_pos hk]
  · rw [if_neg hk]
    have hk2 : keyExists st.files short fn = false := by
      cases hb : keyExists st.files short fn
      · rfl
      · exact absurd hb hk
    show recEntries (setFile st.files short fn (FileContent.snapshotFile content)) =
      recEntries st.files
    rw [setFile_of_keyExists_eq_false _ hk2]
    unfold recEntries
    rw [List.filter_append]
    simp [FileContent.isRecordFile]

/-- C2 amended: in the persist step, a failure while writing a violation's
record file is caught: the failure is logged, no record is added, and the
loop proceeds to the remaining sibling violations of the same commit; but a
failure while writing the snapshot file is not caught — it aborts the whole
repository mining at once and no further violation is processed. -/
theorem c2_write_failures_amended (ctx : RepoCtx) (commit : Commit) (cenv : CommitEnv)
    (i : Nat) (v : RuffEntry) (st : FS) {rel content : String} {row : Nat} {code msg : String}
    (hfn : v.filename = some rel)
    (hex : cenv.fileExists (ctx.temp_dir ++ "/" ++ rel) = true)
    (hrd : cenv.readFile (ctx.temp_dir ++ "/" ++ rel) = some content)
    (hrow : v.location_row = some row) (hcode : v.code = some code)
    (hmsg : v.message = some msg) :
    (cenv.snapshotWriteOk (basename rel) = true →
      cenv.recordWriteOk (recordFileName code (i + 1)) = false →
      (∀ rest, processViolations ctx commit cenv ((i, v) :: rest) st =
        processViolations ctx commit cenv rest
          ((ensureSnapshot st (pyTake commit.hexsha 7) (basename rel) content).addLog
            (LogMsg.jsonSaveError (recordFileName code (i + 1))))) ∧
      recEntries ((ensureSnapshot st (pyTake commit.hexsha 7) (basename rel) content).addLog
        (LogMsg.jsonSaveError (recordFileName code (i + 1)))).files = recEntries st.files) ∧
    (keyExists st.files (pyTake commit.hexsha 7) (basename rel) = false →
      cenv.snapshotWriteOk (basename rel) = false →
      ∀ rest, processViolations ctx commit cenv ((i, v) :: rest) st = Except.error st) := by
  constructor
  · intro hsnapOK hrecFail
    have hpv : process_violation ctx commit cenv i v st = Except.ok
        ((ensureSnapshot st (pyTake commit.hexsha 7) (basename rel) content).addLog
          (LogMsg.jsonSaveError (recordFileName code (i + 1)))) := by
      unfold process_violation
      rw [hfn]
      dsimp only
      have hex1 : ¬(cenv.fileExists (ctx.temp_dir ++ "/" ++ rel) = false) := by
        rw [hex]
        simp
      rw [if_neg hex1, hrd]
      dsimp only
      rw [snapshot_step_eq_ensure hsnapOK]
      dsimp only
      unfold record_step
      rw [hrow, hcode, hmsg]
      dsimp only
      rw [if_neg (by rw [hrecFail]; simp)]
    constructor
    · intro rest
      simp only [processViolations]
      rw [hpv]
    · exact recEntries_ensureSnapshot st (pyTake commit.hexsha 7) (basename rel) content
  · intro hkFalse hsnapFail rest
    have hpv : process_violation ctx commit cenv i v st = Except.error st := by
      unfold process_violation
      rw [hfn]
      dsimp only
      have hex1 : ¬(cenv.fileExists (ctx.temp_dir ++ "/" ++ rel) = false) := by
        rw [hex]
        simp
      rw [if_neg hex1, hrd]
      dsimp only
      have hsnap : snapshot_step cenv st (pyTake commit.hexsha 7) (basename rel) content =
          none := by
        unfold snapshot_step
        rw [if_neg (by rw [hkFalse]; simp), if_neg (by rw [hsnapFail]; simp)]
      rw [hsnap]
    simp only [processViolations]
    rw [hpv]

theorem c2_witness :
    (cenvW2.snapshotWriteOk (basename "a.py") = true →
      cenvW2.recordWriteOk (recordFileName "E2" (0 + 1)) = false →
      (∀ rest, processViolations ctxW2 commitW2 cenvW2 ((0, vW2) :: rest) FS.init =
        processViolations ctxW2 commitW2 cenvW2 rest
          ((ensureSnapshot FS.init (pyTake commitW2.hexsha 7) (basename "a.py") "conteudo").addLog
            (LogMsg.jsonSaveError (recordFileName "E2" (0 + 1))))) ∧
      recEntries ((ensureSnapshot FS.init (pyTake commitW2.hexsha 7) (basename "a.py")
        "conteudo").addLog (LogMsg.jsonSaveError (recordFileName "E2" (0 + 1)))).files =
        recEntries FS.init.files) ∧
    (keyExists FS.init.files (pyTake commitW2.hexsha 7) (basename "a.py") = false →
      cenvW2.snapshotWriteOk (basename "a.py") = false →
      ∀ rest, processViolations ctxW2 commitW2 cenvW2 ((0, vW2) :: rest) FS.init =
        Except.error FS.init) :=
  c2_write_failures_amended ctxW2 commitW2 cenvW2 0 vW2 FS.init rfl rfl rfl rfl rfl rfl

/-- C2 counterexample: a failure while writing the first violation's snapshot
is not logged and does not merely skip that violation: the whole repository
mining crashes, the sibling violation b.py is never persisted, and the log
ends at the analyzing line. -/
theorem c2_counterexample :
    (mine_repository envC2).isCrashed = true ∧
    recEntries (mine_repository envC2).state.files = [] ∧
    (mine_repository envC2).state.logs =
      [LogMsg.cloning "https://h/o/r.git", LogMsg.commitsFound 1 "main",
        LogMsg.analyzing "abcdef1" "2020-01-01"] := by
  decide

/-- C4: when the persist step of one commit receives violations that all
carry the same linter code c, with resolvable and readable files and with
every snapshot and record write succeeding, the loop writes for the j-th
violation of the collector order exactly one record file named by c and the
1-based sequence index j+1, scoped to this commit; the names used for the N
violations, indices 1..N, are pairwise distinct, and record file names built
from pairwise distinct positive indices never collide even across differing
codes. -/
theorem c4_unique_record_naming (ctx : RepoCtx) (commit : Commit) (cenv : CommitEnv)
    (vs : List RuffEntry) (st : FS) (c : String)
    (hsnapAll : ∀ nm, cenv.snapshotWriteOk nm = true)
    (hrecAll : ∀ nm, cenv.recordWriteOk nm = true)
    (hgood : ∀ v ∈ vs, goodEntry ctx cenv v = true)
    (hcode : ∀ v ∈ vs, v.code = some c) :
    (∃ st', processViolations ctx commit cenv vs.enum st = Except.ok st' ∧
      ∀ j (hj : j < vs.length),
        ∃ r, lookupFile st'.files (pyTake commit.hexsha 7) (recordFileName c (j + 1)) =
            some (FileContent.recordFile r) ∧
          r.linter_code = c ∧
          r.line = ((vs.get ⟨j, hj⟩).location_row).getD 0 ∧
          r.file_path_in_repo = ((vs.get ⟨j, hj⟩).filename).getD "" ∧
          r.local_file_name = basename (((vs.get ⟨j, hj⟩).filename).getD "")) ∧
    ((List.range vs.length).map (fun j => recordFileName c (j + 1))).Nodup ∧
    (∀ (l : List (Nat × String)), (∀ p ∈ l, 0 < p.1) → (l.map Prod.fst).Nodup →
      (l.map (fun p => recordFileName p.2 p.1)).Nodup) := by
  refine ⟨?_, recordFileNames_range_nodup c vs.length, recordFileNames_pairs_nodup⟩
  obtain ⟨st', hrun, hpres, hrecs⟩ :=
    processViolations_good ctx commit cenv c hsnapAll hrecAll vs 0 st hgood hcode
  refine ⟨st', ?_, ?_⟩
  · rw [show vs.enum = List.enumFrom 0 vs from rfl]
    exact hrun
  · intro j hj
    obtain ⟨r, hl, h1, h2, h3, h4⟩ := hrecs j hj
    refine ⟨r, ?_, h1, h2, h3, h4⟩
    rw [show j + 1 = 0 + j + 1 by omega]
    exact hl

theorem c4_witness :
    (∃ st', processViolations ctxW4 commitW4 cenvW4 vsW4.enum FS.init = Except.ok st' ∧
      ∀ j (hj : j < vsW4.length),
        ∃ r, lookupFile st'.files (pyTake commitW4.hexsha 7) (recordFileName "E501" (j + 1)) =
            some (FileContent.recordFile r) ∧
          r.linter_code = "E501" ∧
          r.line = ((vsW4.get ⟨j, hj⟩).location_row).getD 0 ∧
          r.file_path_in_repo = ((vsW4.get ⟨j, hj⟩).filename).getD "" ∧
          r.local_file_name = basename (((vsW4.get ⟨j, hj⟩).filename).getD "")) ∧
    ((List.range vsW4.length).map (fun j => recordFileName "E501" (j + 1))).Nodup ∧
    (∀ (l : List (Nat × String)), (∀ p ∈ l, 0 < p.1) → (l.map Prod.fst).Nodup →
      (l.map (fun p => recordFileName p.2 p.1)).Nodup) :=
  c4_unique_record_naming ctxW4 commitW4 cenvW4 vsW4 FS.init "E501"
    (fun _ => rfl) (fun _ => rfl) (by decide) (by decide)

end LintPy
